import Mathlib

/-!
Verification of the real-time transcription relay
(src/pages/LiveTranscriptionPage.js).

The definitions below are a shallow embedding of the relevant JavaScript:
JS values flowing through the websocket message handler become the
inductive type `JSVal`; the column list state becomes `List Column`; the
asynchronous completion of concurrent translation calls becomes an
explicit settle-order list folded over the column state (the JS runtime
is single threaded, so each settled callback runs its append atomically,
in settlement order); the recording life cycle state becomes `LiveState`.
-/

namespace Relay

/-- A JavaScript value as observed by the message handler.  An object is
represented by the one field the handler reads (`transcript.text`), with
`JSVal.undef` standing for a missing field.  Arrays are objects whose
`text` field is undefined. -/
inductive JSVal where
  | undef : JSVal
  | null : JSVal
  | bool (b : Bool) : JSVal
  | num (n : Int) : JSVal
  | str (s : String) : JSVal
  | obj (text : JSVal) : JSVal
deriving DecidableEq, Repr

/-- JS truthiness, as tested by `if (!raw) return;`. -/
def truthy : JSVal → Bool
  | .undef => false
  | .null => false
  | .bool b => b
  | .num n => !(n == 0)
  | .str s => !(s == "")
  | .obj _ => true

/-- Embedding of the raw-transcript selection, JS
`typeof transcript === "object" ? transcript?.text : transcript`:
`typeof null` is `"object"` in JS and optional chaining on null yields
undefined; for a real object the `text` field is read; every other value
is taken as the raw transcript itself. -/
def rawOf : JSVal → JSVal
  | .null => .undef
  | .obj t => t
  | v => v

/-- One transcript column (source line 137: `newCol` shape plus the
`isOriginal` flag set on the initial column).  `lines` holds `JSVal`
because the handler appends whatever raw value survived the truthiness
check. -/
structure Column where
  id : String
  label : String
  lang : String
  lines : List JSVal
  isOriginal : Bool
deriving DecidableEq, Repr

/-- Model of `newCol()` with no overrides: fresh id, label "Transcript", lang
"en", empty lines, and no `isOriginal` key (hence falsy). -/
def newCol (id : String) : Column :=
  { id := id, label := "Transcript", lang := "en", lines := [], isOriginal := false }

/-- The initial column state (source line 174):
`[newCol({ id: "original", label: "Original", lang: "auto", isOriginal: true })]`. -/
def initialColumns : List Column :=
  [{ id := "original", label := "Original", lang := "auto", lines := [], isOriginal := true }]

/-- The fan-out append (source line 236):
`p.map((c) => (c.id === col.id ? { ...c, lines: [...c.lines, translated] } : c))`. -/
def appendLine (id : String) (v : JSVal) (cols : List Column) : List Column :=
  cols.map (fun c => if c.id = id then { c with lines := c.lines ++ [v] } else c)

/-- The synchronous source-column append (source line 231):
`p.map((c) => (c.isOriginal ? { ...c, lines: [...c.lines, raw] } : c))`. -/
def appendOriginal (v : JSVal) (cols : List Column) : List Column :=
  cols.map (fun c => if c.isOriginal then { c with lines := c.lines ++ [v] } else c)

/-- Model of `clearOutputs` (source line 286). -/
def clearOutputs (cols : List Column) : List Column :=
  cols.map (fun c => { c with lines := [] })

/-- Number of non-original (target) columns:
`columns.filter((c) => !c.isOriginal).length`. -/
def countTargets (cols : List Column) : Nat :=
  (cols.filter (fun c => !c.isOriginal)).length

/-- Number of columns carrying the source flag. -/
def countSource (cols : List Column) : Nat :=
  (cols.filter (fun c => c.isOriginal)).length

/-- Model of `addColumn` (source lines 287-290): refuses when two target columns
already exist, otherwise appends a fresh target column. -/
def addColumn (newId : String) (cols : List Column) : List Column :=
  if 2 ≤ countTargets cols then cols else cols ++ [newCol newId]

/-- Model of `removeColumn` (source line 291): `p.filter((c) => c.id !== id)` —
note there is no guard on the source flag. -/
def removeColumn (id : String) (cols : List Column) : List Column :=
  cols.filter (fun c => !(c.id == id))

/-- Model of `changeLang` (source line 292): sets the language of the column with
the given id and clears its lines. -/
def changeLang (id lang : String) (cols : List Column) : List Column :=
  cols.map (fun c => if c.id = id then { c with lang := lang, lines := [] } else c)

/-- The column-state part of `changeSrcLang` (source line 294): sets the
language of the source column; it does not touch `lines`.  (The source
function also restarts capture, modelled separately by `stopLive` and
`startLive`.) -/
def changeSrcLangCols (lang : String) (cols : List Column) : List Column :=
  cols.map (fun c => if c.isOriginal then { c with lang := lang } else c)

/-- Model of `deleteLine` (source lines 299-305):
`lines.filter((_, i) => i !== lineIndex)`. -/
def deleteLine (columnId : String) (lineIndex : Nat) (cols : List Column) : List Column :=
  cols.map (fun c =>
    if c.id = columnId then
      { c with lines := (c.lines.enum.filter (fun p => !(p.1 == lineIndex))).map (fun p => p.2) }
    else c)

/-- Lookup of a column by id. -/
def findCol (id : String) (cols : List Column) : Option Column :=
  cols.find? (fun c => c.id == id)

/-- Whether a column with the given id exists. -/
def columnExists (id : String) (cols : List Column) : Bool :=
  (findCol id cols).isSome

/-- The lines of the column with the given id (empty when absent). -/
def linesOf (id : String) (cols : List Column) : List JSVal :=
  match findCol id cols with
  | some c => c.lines
  | none => []

/-- The language of the column with the given id (empty when absent). -/
def langOf (id : String) (cols : List Column) : String :=
  match findCol id cols with
  | some c => c.lang
  | none => ""

/-!  Translation helper (source lines 121-135).  The HTTP response is
observed only through three outcomes: total failure (network error,
non-ok status, or JSON parse failure, all funnelled into the catch
block), or a JSON body with optional `translated_text` and `text`
fields.  `d.translated_text || d.text || text` takes the first truthy
(non-empty) string. -/

/-- Outcome of the `fetch` to the translate endpoint. -/
inductive TransResponse where
  | fail : TransResponse
  | ok (translated_text : Option String) (text : Option String) : TransResponse
deriving DecidableEq, Repr

/-- JS `a || b` on an optional string field: a present non-empty string
wins, otherwise the fallback. -/
def jsOrStr (v : Option String) (fallback : String) : String :=
  match v with
  | some s => if s = "" then fallback else s
  | none => fallback

/-- Model of `translateText` (source lines 121-135): on failure the original text
is returned; otherwise `d.translated_text || d.text || text`.  The catch
block means the function never rejects. -/
def translateText (text : String) (resp : TransResponse) : String :=
  match resp with
  | .fail => text
  | .ok t u => jsOrStr t (jsOrStr u text)

/-!  Fan-out dispatcher (source lines 225-241).  Each inbound fragment
spawns one async translation per target column; when a call settles its
callback appends the translated line.  The JS event loop runs the
settled callbacks one after another, so the final column state is the
fold of `appendLine` over the settlement order. -/

/-- Replay of the append callbacks of the concurrent translation calls
for fragments `0, 1, 2, ...` on one target column, in the order the
calls settle.  `translation i` is the translated text of fragment `i`;
`settleOrder` lists the fragment indices in settlement order. -/
def fanoutAppendRun (translation : Nat → String) (colId : String)
    (settleOrder : List Nat) (cols : List Column) : List Column :=
  settleOrder.foldl (fun cs i => appendLine colId (.str (translation i)) cs) cols

/-!  Websocket message handler (source lines 225-241). -/

/-- An inbound websocket message: either unparseable JSON (the
`JSON.parse` throw is swallowed by the try/catch) or a parsed object
observed through its `transcript` field (`JSVal.undef` when missing). -/
inductive WsMessage where
  | malformed : WsMessage
  | parsed (transcript : JSVal) : WsMessage
deriving DecidableEq, Repr

/-- One spawned translation task of the fan-out. -/
structure FanTask where
  colId : String
  text : JSVal
  tgtLang : String
deriving DecidableEq, Repr

/-- The synchronous effect of `ws.onmessage`: on a malformed message the
catch block leaves everything unchanged; otherwise the raw transcript is
computed and, when truthy, appended to the source column while one
translation task per target column is spawned; a falsy raw returns
early.  The handler never rethrows, so the session stays open. -/
def handleMessage (msg : WsMessage) (cols : List Column) : List Column × List FanTask :=
  match msg with
  | .malformed => (cols, [])
  | .parsed transcript =>
      let raw := rawOf transcript
      if truthy raw then
        (appendOriginal raw cols,
         (cols.filter (fun c => !c.isOriginal)).map (fun c => ⟨c.id, raw, c.lang⟩))
      else (cols, [])

/-!  Recording life cycle (source lines 183-297).  Socket and capture
handles are modelled as opaque numeric identities. -/

/-- The mutable refs and state flags of the page that the start/stop
logic touches. -/
structure LiveState where
  isLive : Bool
  wsConnected : Bool
  ws : Option Nat
  stream : Option Nat
  isProcessing : Bool
deriving DecidableEq, Repr

/-- Model of `closeSocket` (source lines 183-189). -/
def closeSocket (s : LiveState) : LiveState :=
  { s with ws := none, wsConnected := false }

/-- Model of `stopLive` (source lines 191-202): no-op when not live; otherwise
clears the live flag, closes the socket, and releases the capture
handle. -/
def stopLive (s : LiveState) : LiveState :=
  if !s.isLive then s
  else
    let s1 := { s with isLive := false }
    let s2 := closeSocket s1
    { s2 with stream := none }

/-- Model of `openSocket` (source lines 204-246): closes any previous socket and
installs a new one; `wsConnected` only becomes true later, in the async
`onopen` callback, so it is false right after this call. -/
def openSocket (sock : Nat) (s : LiveState) : LiveState :=
  let s1 := closeSocket s
  { s1 with ws := some sock }

/-- Model of `startLive` (source lines 267-281): no-op when already live;
otherwise opens a socket, then tries to attach the microphone.  On mic
failure the error is alerted (the returned flag) and the socket is
closed again.  `sock` and `newStream` are the identities of the handles
this attempt would create; `micOk` is whether `attachMic` succeeds. -/
def startLive (sock newStream : Nat) (micOk : Bool) (s : LiveState) : LiveState × Bool :=
  if s.isLive then (s, false)
  else
    let s1 := { s with isProcessing := true }
    let s2 := openSocket sock s1
    if micOk then
      ({ s2 with stream := some newStream, isLive := true, isProcessing := false }, false)
    else
      ({ closeSocket s2 with isProcessing := false }, true)

/-!  Audio chunking (source lines 256-263).  The PCM byte buffer is
walked by `for (let i = 0; i < pcm.length; i += 320)` and each
`pcm.slice(i, i + 320)` is sent.  `Uint8Array.slice` clamps to the
buffer end, so the last slice may be short. -/

/-- Model of `pcm.slice(i, i + n)`: the bytes from offset `i`, at most `n` of
them. -/
def sliceBytes (pcm : List Nat) (i n : Nat) : List Nat :=
  (pcm.drop i).take n

/-- The slices produced by the send loop starting at offset `i`. -/
def framesFrom (pcm : List Nat) (i : Nat) : List (List Nat) :=
  if h : i < pcm.length then sliceBytes pcm i 320 :: framesFrom pcm (i + 320) else []
termination_by pcm.length - i
decreasing_by simp_wf; omega

/-- All frames the `onaudioprocess` handler forwards to the socket for
one encoded block, in send order. -/
def sentFrames (pcm : List Nat) : List (List Nat) :=
  framesFrom pcm 0

/-!  Reachable column states.  `Reachable` closes the initial state
under every public mutation exactly as the source defines it (remove
with any id, as `removeColumn` itself has no guard); `ReachableUI` is
the same except that removal is only invoked the way the rendered UI
can, on ids that belong to no source column (the remove button is only
rendered for `!col.isOriginal` columns, source line 1032). -/

/-- States reachable from the initial columns by the raw mutation
operations. -/
inductive Reachable : List Column → Prop where
  | init : Reachable initialColumns
  | add (id : String) {cols : List Column} : Reachable cols → Reachable (addColumn id cols)
  | remove (id : String) {cols : List Column} : Reachable cols → Reachable (removeColumn id cols)
  | chLang (id lang : String) {cols : List Column} : Reachable cols → Reachable (changeLang id lang cols)
  | chSrc (lang : String) {cols : List Column} : Reachable cols → Reachable (changeSrcLangCols lang cols)
  | clear {cols : List Column} : Reachable cols → Reachable (clearOutputs cols)
  | del (id : String) (i : Nat) {cols : List Column} : Reachable cols → Reachable (deleteLine id i cols)
  | app (id : String) (v : JSVal) {cols : List Column} : Reachable cols → Reachable (appendLine id v cols)
  | appSrc (v : JSVal) {cols : List Column} : Reachable cols → Reachable (appendOriginal v cols)

/-- The id targets no source column (what the UI guarantees when it
calls `removeColumn`). -/
def sourceSafe (id : String) (cols : List Column) : Prop :=
  ∀ c ∈ cols, c.isOriginal = true → c.id ≠ id

/-- States reachable when removal is only ever requested for ids that
belong to no source column. -/
inductive ReachableUI : List Column → Prop where
  | init : ReachableUI initialColumns
  | add (id : String) {cols : List Column} : ReachableUI cols → ReachableUI (addColumn id cols)
  | remove (id : String) {cols : List Column} : sourceSafe id cols → ReachableUI cols →
      ReachableUI (removeColumn id cols)
  | chLang (id lang : String) {cols : List Column} : ReachableUI cols →
      ReachableUI (changeLang id lang cols)
  | chSrc (lang : String) {cols : List Column} : ReachableUI cols →
      ReachableUI (changeSrcLangCols lang cols)
  | clear {cols : List Column} : ReachableUI cols → ReachableUI (clearOutputs cols)
  | del (id : String) (i : Nat) {cols : List Column} : ReachableUI cols →
      ReachableUI (deleteLine id i cols)
  | app (id : String) (v : JSVal) {cols : List Column} : ReachableUI cols →
      ReachableUI (appendLine id v cols)
  | appSrc (v : JSVal) {cols : List Column} : ReachableUI cols → ReachableUI (appendOriginal v cols)

/-!  Concrete inputs used by counterexamples and witnesses. -/

/-- Distinct translations for fragments 0, 1, 2. -/
def exTranslation : Nat → String :=
  fun i => if i = 0 then "a" else if i = 1 then "b" else "c"

/-- A source column plus one target column with empty lines. -/
def exCols : List Column :=
  [{ id := "original", label := "Original", lang := "auto", lines := [], isOriginal := true },
   { id := "t1", label := "Transcript", lang := "en", lines := [], isOriginal := false }]

/-- A source column that already holds one line. -/
def exColsWithLine : List Column :=
  [{ id := "original", label := "Original", lang := "auto", lines := [.str "a"], isOriginal := true }]

/-- A state that is currently live. -/
def exLiveState : LiveState :=
  { isLive := true, wsConnected := true, ws := some 1, stream := some 1, isProcessing := false }

/-- A state that is idle. -/
def exIdleState : LiveState :=
  { isLive := false, wsConnected := false, ws := none, stream := none, isProcessing := false }

/-- The initial column plus two target columns. -/
def exTwoTargets : List Column :=
  initialColumns ++ [newCol "1", newCol "2"]

/-!  Helper lemmas. -/

theorem findCol_appendLine (id : String) (v : JSVal) (cols : List Column) :
    findCol id (appendLine id v cols)
      = (findCol id cols).map (fun c => { c with lines := c.lines ++ [v] }) := by
  induction cols with
  | nil => rfl
  | cons c cs ih =>
    by_cases h : c.id = id
    · simp [findCol, appendLine, List.find?_cons, h]
    · simp only [findCol, appendLine, List.map_cons] at ih ⊢
      rw [if_neg h]
      rw [List.find?_cons, List.find?_cons]
      have hb : (c.id == id) = false := beq_eq_false_iff_ne.mpr h
      simp only [hb]
      exact ih

theorem columnExists_appendLine (id : String) (v : JSVal) (cols : List Column) :
    columnExists id (appendLine id v cols) = columnExists id cols := by
  unfold columnExists
  rw [findCol_appendLine]
  cases findCol id cols <;> rfl

theorem linesOf_appendLine (id : String) (v : JSVal) (cols : List Column)
    (h : columnExists id cols = true) :
    linesOf id (appendLine id v cols) = linesOf id cols ++ [v] := by
  unfold linesOf
  rw [findCol_appendLine]
  cases hf : findCol id cols with
  | none => unfold columnExists at h; rw [hf] at h; simp at h
  | some c => rfl

/-!  Claim theorems. -/

/-- Claim C2 (corrected ordering context aside, this one holds): a
pending translation result addressed to a removed column id settles as
a no-op — the append leaves the whole column list unchanged, every
remaining column untouched, and nothing throws (the operation is a
total function). -/
theorem C2_append_to_removed_noop (id : String) (v : JSVal) (cols : List Column) :
    appendLine id v (removeColumn id cols) = removeColumn id cols := by
  induction cols with
  | nil => rfl
  | cons c cs ih =>
    by_cases h : c.id = id
    · simp only [removeColumn, List.filter_cons] at ih ⊢
      have hb : (c.id == id) = true := beq_iff_eq.mpr h
      simp only [hb, Bool.not_true, if_neg]
      simpa using ih
    · have hb : (c.id == id) = false := beq_eq_false_iff_ne.mpr h
      simp only [removeColumn, List.filter_cons, hb, Bool.not_false, if_pos] at ih ⊢
      simp only [appendLine, List.map_cons, if_neg h] at ih ⊢
      rw [ih]

/-- Claim C3: `translateText` never rejects; a failed call (network or
HTTP error, unparseable body) or a response with no non-empty accepted
field resolves to the original fragment text, so the appended line then
equals the original text; otherwise the first non-empty field among
`translated_text`, `text` wins. -/
theorem C3_translate_fallback :
    (∀ text, translateText text .fail = text)
    ∧ (∀ text, translateText text (.ok none none) = text)
    ∧ (∀ text, translateText text (.ok (some "") (some "")) = text)
    ∧ (∀ text t u, t ≠ "" → translateText text (.ok (some t) u) = t)
    ∧ (∀ text u, u ≠ "" → translateText text (.ok none (some u)) = u)
    ∧ (∀ text u, u ≠ "" → translateText text (.ok (some "") (some u)) = u)
    ∧ (∀ colId cols text, appendLine colId (.str (translateText text .fail)) cols
        = appendLine colId (.str text) cols) := by
  refine ⟨fun _ => rfl, fun _ => rfl, fun _ => rfl, ?_, ?_, ?_, fun _ _ _ => rfl⟩
  · intro text t u h; simp [translateText, jsOrStr, h]
  · intro text u h; simp [translateText, jsOrStr, h]
  · intro text u h; simp [translateText, jsOrStr, h]

/-- Witness for C3 at concrete inputs. -/
theorem C3_witness :
    translateText "orig" .fail = "orig"
    ∧ ("hola" ≠ "" ∧ translateText "orig" (.ok (some "hola") (some "x")) = "hola")
    ∧ ("bon" ≠ "" ∧ translateText "orig" (.ok none (some "bon")) = "bon") :=
  ⟨C3_translate_fallback.1 "orig",
   ⟨by decide, C3_translate_fallback.2.2.2.1 "orig" "hola" (some "x") (by decide)⟩,
   ⟨by decide, C3_translate_fallback.2.2.2.2.1 "orig" "bon" (by decide)⟩⟩

/-- Counterexample to claim C5 as stated: a transcript that is the
number 5 is neither a non-empty string nor an object with a text field,
yet the handler does append it to the source column (JS truthiness lets
any non-zero number through the `if (!raw) return` guard). -/
theorem C5_counterexample :
    (handleMessage (.parsed (.num 5)) initialColumns).1 ≠ initialColumns
    ∧ linesOf "original" (handleMessage (.parsed (.num 5)) initialColumns).1 = [.num 5] := by
  constructor
  · decide
  · decide

/-- Claim C5, amended: the handler ignores (no column modified, no task
spawned, no error raised, session left open) exactly the messages whose
computed raw transcript value is falsy — unparseable JSON, a missing
transcript field, the empty string, null, the number 0, false, or an
object (including arrays) without a truthy `text` field.  Truthy
non-string primitives such as non-zero numbers or `true` are NOT
ignored; they are appended like strings. -/
theorem C5_amended_ignore_falsy :
    (∀ cols, handleMessage .malformed cols = (cols, []))
    ∧ (∀ (t : JSVal) (cols : List Column), truthy (rawOf t) = false →
        handleMessage (.parsed t) cols = (cols, [])) := by
  refine ⟨fun _ => rfl, ?_⟩
  intro t cols h
  simp [handleMessage, h]

/-- Witness for C5 at concrete inputs: a malformed message and an
object whose text field is the empty string are both ignored. -/
theorem C5_witness :
    handleMessage .malformed initialColumns = (initialColumns, [])
    ∧ (truthy (rawOf (.obj (.str ""))) = false
        ∧ handleMessage (.parsed (.obj (.str ""))) initialColumns = (initialColumns, [])) :=
  ⟨C5_amended_ignore_falsy.1 initialColumns,
   ⟨by decide, C5_amended_ignore_falsy.2 (.obj (.str "")) initialColumns (by decide)⟩⟩

/-- Claim C6: stopping twice yields the same terminal state as stopping
once (stop on a non-live state changes nothing), and starting while
already live is a no-op: no second connection is opened and the capture
handle and socket are exactly those of the current state. -/
theorem C6_stop_idempotent_start_noop :
    (∀ s : LiveState, stopLive (stopLive s) = stopLive s)
    ∧ (∀ s : LiveState, s.isLive = false → stopLive s = s)
    ∧ (∀ (sock newStream : Nat) (micOk : Bool) (s : LiveState), s.isLive = true →
        startLive sock newStream micOk s = (s, false)) := by
  refine ⟨?_, ?_, ?_⟩
  · intro s
    by_cases h : s.isLive = true
    · simp [stopLive, closeSocket, h]
    · simp [stopLive, closeSocket, eq_false_of_ne_true h]
  · intro s h; simp [stopLive, h]
  · intro sock newStream micOk s h; simp [startLive, h]

/-- Witness for C6 at concrete states. -/
theorem C6_witness :
    (exIdleState.isLive = false ∧ stopLive exIdleState = exIdleState)
    ∧ (exLiveState.isLive = true ∧ startLive 7 8 true exLiveState = (exLiveState, false)) :=
  ⟨⟨by decide, C6_stop_idempotent_start_noop.2.1 exIdleState (by decide)⟩,
   ⟨by decide, C6_stop_idempotent_start_noop.2.2 7 8 true exLiveState (by decide)⟩⟩

/-- Claim C7: when microphone acquisition fails during a start attempt,
the error is surfaced (the alert flag is true), the socket opened for
the attempt is closed again, and the system is not live — no state with
an open session but no captured microphone persists. -/
theorem C7_mic_failure_teardown (sock newStream : Nat) (s : LiveState)
    (h : s.isLive = false) :
    (startLive sock newStream false s).2 = true
    ∧ (startLive sock newStream false s).1.isLive = false
    ∧ (startLive sock newStream false s).1.ws = none
    ∧ (startLive sock newStream false s).1.wsConnected = false
    ∧ (startLive sock newStream false s).1.stream = s.stream
    ∧ (startLive sock newStream false s).1.isProcessing = false := by
  simp [startLive, openSocket, closeSocket, h]

/-- Witness for C7 at a concrete idle state. -/
theorem C7_witness :
    exIdleState.isLive = false
    ∧ (startLive 7 8 false exIdleState).2 = true
    ∧ (startLive 7 8 false exIdleState).1.ws = none :=
  ⟨by decide, (C7_mic_failure_teardown 7 8 exIdleState (by decide)).1,
   (C7_mic_failure_teardown 7 8 exIdleState (by decide)).2.2.1⟩

/-- Counterexample to claim C1 as stated: with fragments 0, 1, 2 whose
translation calls settle in order 2, 0, 1, the target column ends with
lines `[translation 2, translation 0, translation 1]`, not
`[translation 0, translation 1, translation 2]` — the dispatcher
appends on settlement and performs no reordering. -/
theorem C1_counterexample :
    linesOf "t1" (fanoutAppendRun exTranslation "t1" [2, 0, 1] exCols)
      = [.str (exTranslation 2), .str (exTranslation 0), .str (exTranslation 1)]
    ∧ linesOf "t1" (fanoutAppendRun exTranslation "t1" [2, 0, 1] exCols)
      ≠ [.str (exTranslation 0), .str (exTranslation 1), .str (exTranslation 2)] := by
  constructor
  · decide
  · decide

/-- Claim C1, amended: the per-column appends happen in translation
settlement order, not fragment order — the final lines of the target
column are its prior lines extended by the translations listed in the
order the calls settled (so settlement order 2, 0, 1 yields
`[translation 2, translation 0, translation 1]`). -/
theorem C1_amended_settlement_order (translation : Nat → String) (colId : String)
    (settleOrder : List Nat) (cols : List Column)
    (h : columnExists colId cols = true) :
    linesOf colId (fanoutAppendRun translation colId settleOrder cols)
      = linesOf colId cols ++ settleOrder.map (fun i => JSVal.str (translation i)) := by
  induction settleOrder generalizing cols with
  | nil => simp [fanoutAppendRun]
  | cons i rest ih =>
    have hstep : fanoutAppendRun translation colId (i :: rest) cols
        = fanoutAppendRun translation colId rest
            (appendLine colId (.str (translation i)) cols) := rfl
    rw [hstep, ih _ ((columnExists_appendLine colId _ cols).trans h),
      linesOf_appendLine colId _ cols h]
    simp

/-- Witness for C1 amended at concrete inputs. -/
theorem C1_witness :
    columnExists "t1" exCols = true
    ∧ linesOf "t1" (fanoutAppendRun exTranslation "t1" [1, 0] exCols)
      = linesOf "t1" exCols ++ [1, 0].map (fun i => JSVal.str (exTranslation i)) :=
  ⟨by decide, C1_amended_settlement_order exTranslation "t1" [1, 0] exCols (by decide)⟩

theorem findCol_changeLang (id lang : String) (cols : List Column) :
    findCol id (changeLang id lang cols)
      = (findCol id cols).map (fun c => { c with lang := lang, lines := [] }) := by
  induction cols with
  | nil => rfl
  | cons c cs ih =>
    by_cases h : c.id = id
    · simp [findCol, changeLang, List.find?_cons, h]
    · simp only [findCol, changeLang, List.map_cons] at ih ⊢
      rw [if_neg h]
      rw [List.find?_cons, List.find?_cons]
      have hb : (c.id == id) = false := beq_eq_false_iff_ne.mpr h
      simp only [hb]
      exact ih

/-- Counterexample to claim C8 as stated: the language-change operation
actually used for the source column, `changeSrcLang`, sets the new
language but does NOT empty the source column lines. -/
theorem C8_counterexample :
    langOf "original" (changeSrcLangCols "fr" exColsWithLine) = "fr"
    ∧ linesOf "original" (changeSrcLangCols "fr" exColsWithLine) = [.str "a"]
    ∧ linesOf "original" (changeSrcLangCols "fr" exColsWithLine) ≠ [] := by
  refine ⟨by decide, by decide, by decide⟩

/-- Claim C8, amended: `changeLang(id, tag)` sets the addressed column
language and empties its lines while leaving every other-id column
exactly as it was — and this would hold even for the source column id;
but the operation the page uses for the source column, `changeSrcLang`,
sets the language and PRESERVES all line lists. -/
theorem C8_amended_changeLang :
    (∀ id lang cols, columnExists id cols = true →
        langOf id (changeLang id lang cols) = lang
        ∧ linesOf id (changeLang id lang cols) = [])
    ∧ (∀ id lang cols, (changeLang id lang cols).filter (fun c => !(c.id == id))
        = cols.filter (fun c => !(c.id == id)))
    ∧ (∀ lang cols, (changeSrcLangCols lang cols).map Column.lines
        = cols.map Column.lines) := by
  refine ⟨?_, ?_, ?_⟩
  · intro id lang cols h
    unfold langOf linesOf
    rw [findCol_changeLang]
    cases hf : findCol id cols with
    | none => unfold columnExists at h; rw [hf] at h; simp at h
    | some c => exact ⟨rfl, rfl⟩
  · intro id lang cols
    induction cols with
    | nil => rfl
    | cons c cs ih =>
      by_cases h : c.id = id
      · have hb : (c.id == id) = true := beq_iff_eq.mpr h
        simp only [changeLang, List.map_cons, if_pos h, List.filter_cons] at ih ⊢
        simp only [hb, Bool.not_true, if_neg]
        simpa using ih
      · have hb : (c.id == id) = false := beq_eq_false_iff_ne.mpr h
        simp only [changeLang, List.map_cons, if_neg h, List.filter_cons, hb,
          Bool.not_false, if_pos] at ih ⊢
        rw [ih]
  · intro lang cols
    induction cols with
    | nil => rfl
    | cons c cs ih =>
      by_cases h : c.isOriginal = true
      · simp only [changeSrcLangCols, List.map_cons, if_pos h] at ih ⊢
        rw [ih]
      · simp only [changeSrcLangCols, List.map_cons, if_neg h] at ih ⊢
        rw [ih]

/-- Witness for C8 amended at concrete inputs. -/
theorem C8_witness :
    columnExists "t1" exCols = true
    ∧ (langOf "t1" (changeLang "t1" "fr" exCols) = "fr"
        ∧ linesOf "t1" (changeLang "t1" "fr" exCols) = []) :=
  ⟨by decide, C8_amended_changeLang.1 "t1" "fr" exCols (by decide)⟩

theorem countSource_map (f : Column → Column)
    (hf : ∀ c, (f c).isOriginal = c.isOriginal) (cols : List Column) :
    countSource (cols.map f) = countSource cols := by
  induction cols with
  | nil => rfl
  | cons c cs ih =>
    unfold countSource at ih ⊢
    simp only [List.map_cons, List.filter_cons, hf c]
    cases c.isOriginal <;> simp [ih]

theorem countTargets_map (f : Column → Column)
    (hf : ∀ c, (f c).isOriginal = c.isOriginal) (cols : List Column) :
    countTargets (cols.map f) = countTargets cols := by
  induction cols with
  | nil => rfl
  | cons c cs ih =>
    unfold countTargets at ih ⊢
    simp only [List.map_cons, List.filter_cons, hf c]
    cases c.isOriginal <;> simp [ih]

theorem length_filter_and {α : Type} (p q : α → Bool) (l : List α)
    (h : ∀ a ∈ l, p a = true → q a = true) :
    (l.filter (fun a => p a && q a)).length = (l.filter p).length := by
  induction l with
  | nil => rfl
  | cons a l ih =>
    have htail : ∀ a ∈ l, p a = true → q a = true :=
      fun a ha => h a (List.mem_cons_of_mem _ ha)
    simp only [List.filter_cons]
    by_cases hp : p a = true
    · have hq := h a (List.mem_cons_self _ _) hp
      simp [hp, hq, ih htail]
    · simp [eq_false_of_ne_true hp, ih htail]

theorem countSource_removeColumn_of_sourceSafe (id : String) (cols : List Column)
    (h : sourceSafe id cols) :
    countSource (removeColumn id cols) = countSource cols := by
  unfold countSource removeColumn
  rw [List.filter_filter]
  apply length_filter_and
  intro c hc hsrc
  have hid : c.id ≠ id := h c hc hsrc
  simp [beq_eq_false_iff_ne.mpr hid]

theorem countSource_changeLang (id lang : String) (cols : List Column) :
    countSource (changeLang id lang cols) = countSource cols :=
  countSource_map _ (by intro c; by_cases h : c.id = id <;> simp [h]) cols

theorem countSource_changeSrcLangCols (lang : String) (cols : List Column) :
    countSource (changeSrcLangCols lang cols) = countSource cols :=
  countSource_map _ (by intro c; by_cases h : c.isOriginal = true <;> simp [h]) cols

theorem countSource_clearOutputs (cols : List Column) :
    countSource (clearOutputs cols) = countSource cols :=
  countSource_map (fun c => { c with lines := [] }) (fun _ => rfl) cols

theorem countSource_deleteLine (id : String) (i : Nat) (cols : List Column) :
    countSource (deleteLine id i cols) = countSource cols :=
  countSource_map _ (by intro c; by_cases h : c.id = id <;> simp [h]) cols

theorem countSource_appendLine (id : String) (v : JSVal) (cols : List Column) :
    countSource (appendLine id v cols) = countSource cols :=
  countSource_map _ (by intro c; by_cases h : c.id = id <;> simp [h]) cols

theorem countSource_appendOriginal (v : JSVal) (cols : List Column) :
    countSource (appendOriginal v cols) = countSource cols :=
  countSource_map _ (by intro c; by_cases h : c.isOriginal = true <;> simp [h]) cols

theorem countSource_addColumn (id : String) (cols : List Column) :
    countSource (addColumn id cols) = countSource cols := by
  unfold addColumn
  split
  · rfl
  · simp [countSource, List.filter_append, newCol]

/-- Counterexample to claim C9 as stated: `removeColumn` has no guard
on the source flag, so the reachable state obtained by removing the id
of the source column holds zero source columns. -/
theorem C9_counterexample :
    Reachable (removeColumn "original" initialColumns)
    ∧ removeColumn "original" initialColumns = []
    ∧ countSource (removeColumn "original" initialColumns) = 0
    ∧ countSource initialColumns = 1 :=
  ⟨Reachable.remove "original" Reachable.init, by decide, by decide, by decide⟩

/-- Claim C9, amended: in every state reachable when removal is only
requested for ids belonging to no source column (which is all the
rendered UI can do — the remove button exists only on non-source
columns), exactly one column carries the source flag; `removeColumn`
called directly with the source id does remove it. -/
theorem C9_amended_source_invariant (cols : List Column) (h : ReachableUI cols) :
    countSource cols = 1 := by
  induction h with
  | init => decide
  | add id _ ih => rw [countSource_addColumn]; exact ih
  | remove id hsafe _ ih => rw [countSource_removeColumn_of_sourceSafe id _ hsafe]; exact ih
  | chLang id lang _ ih => rw [countSource_changeLang]; exact ih
  | chSrc lang _ ih => rw [countSource_changeSrcLangCols]; exact ih
  | clear _ ih => rw [countSource_clearOutputs]; exact ih
  | del id i _ ih => rw [countSource_deleteLine]; exact ih
  | app id v _ ih => rw [countSource_appendLine]; exact ih
  | appSrc v _ ih => rw [countSource_appendOriginal]; exact ih

/-- Witness for C9 amended at the initial state. -/
theorem C9_witness : countSource initialColumns = 1 :=
  C9_amended_source_invariant initialColumns ReachableUI.init

theorem countTargets_removeColumn_le (id : String) (cols : List Column) :
    countTargets (removeColumn id cols) ≤ countTargets cols := by
  unfold countTargets removeColumn
  exact List.Sublist.length_le (List.Sublist.filter _ (List.filter_sublist cols))

theorem countTargets_addColumn (id : String) (cols : List Column) :
    countTargets (addColumn id cols)
      = if 2 ≤ countTargets cols then countTargets cols else countTargets cols + 1 := by
  unfold addColumn
  split
  · rfl
  · simp [countTargets, List.filter_append, newCol]

theorem countTargets_changeLang (id lang : String) (cols : List Column) :
    countTargets (changeLang id lang cols) = countTargets cols :=
  countTargets_map (fun c => if c.id = id then { c with lang := lang, lines := [] } else c)
    (by intro c; by_cases h : c.id = id <;> simp [h]) cols

theorem countTargets_changeSrcLangCols (lang : String) (cols : List Column) :
    countTargets (changeSrcLangCols lang cols) = countTargets cols :=
  countTargets_map (fun c => if c.isOriginal then { c with lang := lang } else c)
    (by intro c; by_cases h : c.isOriginal = true <;> simp [h]) cols

theorem countTargets_clearOutputs (cols : List Column) :
    countTargets (clearOutputs cols) = countTargets cols :=
  countTargets_map (fun c => { c with lines := [] }) (fun _ => rfl) cols

theorem countTargets_deleteLine (id : String) (i : Nat) (cols : List Column) :
    countTargets (deleteLine id i cols) = countTargets cols :=
  countTargets_map _ (by intro c; by_cases h : c.id = id <;> simp [h]) cols

theorem countTargets_appendLine (id : String) (v : JSVal) (cols : List Column) :
    countTargets (appendLine id v cols) = countTargets cols :=
  countTargets_map (fun c => if c.id = id then { c with lines := c.lines ++ [v] } else c)
    (by intro c; by_cases h : c.id = id <;> simp [h]) cols

theorem countTargets_appendOriginal (v : JSVal) (cols : List Column) :
    countTargets (appendOriginal v cols) = countTargets cols :=
  countTargets_map (fun c => if c.isOriginal then { c with lines := c.lines ++ [v] } else c)
    (by intro c; by_cases h : c.isOriginal = true <;> simp [h]) cols

/-- Claim C10: in every reachable state there are at most two target
(non-source) columns, and `addColumn` on a state that already has two
targets leaves the column list entirely unchanged. -/
theorem C10_target_bound :
    (∀ cols, Reachable cols → countTargets cols ≤ 2)
    ∧ (∀ newId cols, 2 ≤ countTargets cols → addColumn newId cols = cols) := by
  constructor
  · intro cols h
    induction h with
    | init => decide
    | add id _ ih =>
      rw [countTargets_addColumn]
      split
      · exact ih
      · omega
    | remove id _ ih => exact le_trans (countTargets_removeColumn_le id _) ih
    | chLang id lang _ ih => rw [countTargets_changeLang]; exact ih
    | chSrc lang _ ih => rw [countTargets_changeSrcLangCols]; exact ih
    | clear _ ih => rw [countTargets_clearOutputs]; exact ih
    | del id i _ ih => rw [countTargets_deleteLine]; exact ih
    | app id v _ ih => rw [countTargets_appendLine]; exact ih
    | appSrc v _ ih => rw [countTargets_appendOriginal]; exact ih
  · intro newId cols h
    unfold addColumn
    rw [if_pos h]

/-- Witness for C10 at concrete states. -/
theorem C10_witness :
    countTargets initialColumns ≤ 2
    ∧ (2 ≤ countTargets exTwoTargets ∧ addColumn "x" exTwoTargets = exTwoTargets) :=
  ⟨C10_target_bound.1 initialColumns Reachable.init,
   ⟨by decide, C10_target_bound.2 "x" exTwoTargets (by decide)⟩⟩

theorem framesFrom_nil_of_ge (pcm : List Nat) (i : Nat) (h : ¬ i < pcm.length) :
    framesFrom pcm i = [] := by
  unfold framesFrom
  simp [h]

theorem framesFrom_cons_of_lt (pcm : List Nat) (i : Nat) (h : i < pcm.length) :
    framesFrom pcm i = sliceBytes pcm i 320 :: framesFrom pcm (i + 320) := by
  rw [framesFrom]
  simp [h]

theorem framesFrom_flatten (pcm : List Nat) (i : Nat) :
    (framesFrom pcm i).flatten = pcm.drop i := by
  by_cases h : i < pcm.length
  · rw [framesFrom_cons_of_lt pcm i h, List.flatten_cons,
      framesFrom_flatten pcm (i + 320)]
    unfold sliceBytes
    rw [← List.drop_drop]
    exact List.take_append_drop 320 (pcm.drop i)
  · rw [framesFrom_nil_of_ge pcm i h, List.flatten_nil,
      List.drop_eq_nil_of_le (Nat.le_of_not_lt h)]
termination_by pcm.length - i
decreasing_by simp_wf; omega

theorem framesFrom_sizes (pcm : List Nat) (i : Nat) :
    (framesFrom pcm i).all (fun f => decide (0 < f.length) && decide (f.length ≤ 320)) = true := by
  by_cases h : i < pcm.length
  · rw [framesFrom_cons_of_lt pcm i h, List.all_cons]
    simp only [Bool.and_eq_true, decide_eq_true_eq]
    refine ⟨⟨?_, ?_⟩, framesFrom_sizes pcm (i + 320)⟩
    · unfold sliceBytes
      simp only [List.length_take, List.length_drop]
      omega
    · unfold sliceBytes
      simp only [List.length_take, List.length_drop]
      omega
  · rw [framesFrom_nil_of_ge pcm i h]
    rfl
termination_by pcm.length - i
decreasing_by simp_wf; omega

theorem framesFrom_dropLast_all (pcm : List Nat) (i : Nat) :
    ((framesFrom pcm i).dropLast.all (fun f => f.length == 320)) = true := by
  by_cases h : i < pcm.length
  · by_cases h2 : i + 320 < pcm.length
    · have hrec := framesFrom_dropLast_all pcm (i + 320)
      have htail : framesFrom pcm (i + 320) ≠ [] := by
        rw [framesFrom_cons_of_lt pcm (i + 320) h2]
        simp
      rw [framesFrom_cons_of_lt pcm i h]
      cases hcons : framesFrom pcm (i + 320) with
      | nil => exact absurd hcons htail
      | cons y ys =>
        rw [List.dropLast_cons₂, List.all_cons]
        rw [hcons] at hrec
        simp only [hrec, Bool.and_true]
        unfold sliceBytes
        simp only [beq_iff_eq, List.length_take, List.length_drop]
        omega
    · have htail : framesFrom pcm (i + 320) = [] := framesFrom_nil_of_ge pcm (i + 320) h2
      rw [framesFrom_cons_of_lt pcm i h, htail, List.dropLast_single]
      rfl
  · rw [framesFrom_nil_of_ge pcm i h]
    rfl
termination_by pcm.length - i
decreasing_by simp_wf; omega

/-- Counterexample to claim C4 as stated: a 2-byte PCM buffer (one
sample) yields a single forwarded frame of 2 bytes, not 320 —
`Uint8Array.slice` clamps at the buffer end, so for lengths that are
not a multiple of 320 the final frame is short. -/
theorem C4_counterexample :
    sentFrames [0, 0] = [[0, 0]] ∧ ([0, 0] : List Nat).length ≠ 320 := by
  constructor
  · show framesFrom [0, 0] 0 = [[0, 0]]
    rw [framesFrom_cons_of_lt [0, 0] 0 (by norm_num),
      framesFrom_nil_of_ge [0, 0] (0 + 320) (by norm_num)]
    rfl
  · decide

/-- Claim C4, amended: the byte buffer is sliced from offset 0 in
steps of 320 and the frames are forwarded in increasing-offset order —
their concatenation is exactly the original buffer; every frame except
possibly the last is exactly 320 bytes, and every frame is non-empty
and at most 320 bytes (the final frame is shorter whenever the buffer
length is not a multiple of 320). -/
theorem C4_amended_frames (pcm : List Nat) :
    (sentFrames pcm).flatten = pcm
    ∧ ((sentFrames pcm).dropLast.all (fun f => f.length == 320)) = true
    ∧ ((sentFrames pcm).all (fun f => decide (0 < f.length) && decide (f.length ≤ 320)))
        = true := by
  refine ⟨?_, framesFrom_dropLast_all pcm 0, framesFrom_sizes pcm 0⟩
  have h := framesFrom_flatten pcm 0
  simpa using h

end Relay
